import Mathlib

/-!
Verification of the goobert grid playback coordinator (src/goobert.py).

This file gives a shallow embedding of the parts of goobert that the
specification's testable properties talk about: the fullscreen state
machine (`FullscreenState`, `_enter_fullscreen`, `_enter_tile_fullscreen`,
`_exit_tile_fullscreen`, `_exit_tile_fullscreen_internal`,
`_exit_fullscreen`, `_emergency_reset`), the MPV IPC controller
(`MPVController.send_command`), the broadcast CLI (`send_ipc_command`,
`broadcast`, and the argparse dispatch in `main`), the rename propagator
(`_rename_selected_current`), and the wall spawner (`_start_grid` /
`_spawn_cell`).

Python dicts are modelled as association lists (insertion ordered, first
binding wins, matching dict semantics for unique keys); the external MPV
players are modelled by a per-cell state record carrying the pause/mute
flags together with oracle bits saying whether an IPC property read
returns data; socket/transport success is an oracle predicate on socket
paths.  All functions are total: the Python code reaches the modelled
states by swallowing exceptions (`with suppress`, `try/except`), which the
embedding renders as the corresponding no-op branches.
-/

namespace Goobert

/-- Cell coordinate (row, column), the key of every per-cell map. -/
abbrev CellKey := Nat × Nat

/-- Python dict lookup `d.get(k)` over an association list: first binding wins. -/
def dictGet {K α : Type} [DecidableEq K] : List (K × α) → K → Option α
  | [], _ => none
  | (k', v) :: rest, k => if k' = k then some v else dictGet rest k

/-- Fullscreen state modes, mirroring the `FullscreenMode` enum. -/
inductive FullscreenMode where
  | NORMAL
  | GLOBAL
  | TILE
  deriving DecidableEq, Repr

/-- Tk grid placement options of one cell frame, mirroring the dict built by
`_save_frame_grid_info` (row, column, rowspan, columnspan, sticky, padx, pady). -/
structure GridInfo where
  row : Nat
  column : Nat
  rowspan : Nat
  columnspan : Nat
  sticky : String
  padx : Nat
  pady : Nat
  deriving DecidableEq, Repr

/-- Centralized fullscreen state, mirroring the `FullscreenState` dataclass. -/
structure FullscreenState where
  mode : FullscreenMode := .NORMAL
  active_tile : Option CellKey := none
  saved_sash_pos : Option Int := none
  side_visible : Bool := true
  saved_grid_info : List (CellKey × Option GridInfo) := []
  saved_pause_states : List (CellKey × Bool) := []
  saved_mute_states : List (CellKey × Bool) := []
  tile_forced_global : Bool := false
  deriving DecidableEq, Repr

/-- The `FullscreenState.reset` method: reset to normal state.  Note that it
does not touch `saved_sash_pos`, exactly as in the source. -/
def FullscreenState.reset (fs : FullscreenState) : FullscreenState :=
  { fs with
    mode := .NORMAL
    active_tile := none
    side_visible := true
    saved_grid_info := []
    saved_pause_states := []
    saved_mute_states := []
    tile_forced_global := false }

/-- The `is_fullscreen` property of `FullscreenState`. -/
def FullscreenState.is_fullscreen (fs : FullscreenState) : Bool :=
  fs.mode = .GLOBAL ∨ fs.mode = .TILE

/-- State of one MPV player process as seen over IPC: the pause/mute flags,
plus oracle bits recording whether a `get_property` read of each flag
returns data (an IPC failure makes `MPVController.get_property` return
`None`, since `send_command` then yields a dict without a `data` field). -/
structure CellState where
  pause : Bool
  mute : Bool
  pauseReadable : Bool
  muteReadable : Bool
  deriving DecidableEq, Repr

/-- Result of `ctrl.get_property("pause")`: the flag if the read yields data. -/
def readPause (c : CellState) : Option Bool :=
  if c.pauseReadable then some c.pause else none

/-- Result of `ctrl.get_property("mute")`: the flag if the read yields data. -/
def readMute (c : CellState) : Option Bool :=
  if c.muteReadable then some c.mute else none

/-- State of one cell's Tk frame: whether it is currently gridded (visible),
its grid placement options, and an oracle bit for whether `grid_info()`
succeeds in `_save_frame_grid_info` (which returns `None` on failure). -/
structure FrameState where
  visible : Bool
  layout : GridInfo
  saveOk : Bool
  deriving DecidableEq, Repr

/-- The `_save_frame_grid_info` helper: the frame's current grid options, or
`None` when reading them fails. -/
def saveFrameGridInfo (f : FrameState) : Option GridInfo :=
  if f.saveOk then some f.layout else none

/-- The app state the fullscreen state machine operates over: the
`FullscreenState`, the window `-fullscreen` attribute, whether the side
panel is attached to the paned window, the physical sash position, the
`controllers` dict (with the player state behind each controller), the
`cell_frames` dict, and the current grid dimensions. -/
structure AppState where
  fs : FullscreenState
  windowFullscreen : Bool
  panelAttached : Bool
  sashPos : Int
  cells : List (CellKey × CellState)
  frames : List (CellKey × FrameState)
  currentRows : Nat
  currentCols : Nat
  deriving DecidableEq, Repr

/-- The `_enter_fullscreen` method: enter global fullscreen.  From NORMAL the
sash position is saved; the side panel is hidden if visible; the window
fullscreen attribute is set; the mode becomes GLOBAL. -/
def enterFullscreen (s : AppState) : AppState :=
  if s.fs.mode = .GLOBAL then s
  else
    let fs1 := if s.fs.mode = .NORMAL then { s.fs with saved_sash_pos := some s.sashPos } else s.fs
    let hidePanel := fs1.side_visible
    let fs2 := if hidePanel then { fs1 with side_visible := false } else fs1
    { s with
      panelAttached := if hidePanel then false else s.panelAttached
      windowFullscreen := true
      fs := { fs2 with mode := .GLOBAL } }

/-- Body of the frame-restoring loops: `frame.grid(**saved_info)` when the
snapshot holds grid options for this cell (the walrus test treats both a
missing key and a saved `None` as falsy), else a plain `frame.grid()` which
re-grids the frame with its remembered options. -/
def restoreFrame (sg : List (CellKey × Option GridInfo)) (k : CellKey) (f : FrameState) :
    FrameState :=
  match dictGet sg k with
  | some (some gi) => { f with visible := true, layout := gi }
  | _ => { f with visible := true }

/-- Body of the pause/mute restoring loop in `_exit_tile_fullscreen_internal`:
the active tile is skipped; any other cell gets its pause and mute flags set
from the snapshots when the snapshots hold them. -/
def restoreCell (sp sm : List (CellKey × Bool)) (act : Option CellKey) (k : CellKey)
    (c : CellState) : CellState :=
  if some k = act then c
  else
    let c1 := match dictGet sp k with
      | some b => { c with pause := b }
      | none => c
    match dictGet sm k with
    | some b => { c1 with mute := b }
    | none => c1

/-- The `_exit_tile_fullscreen_internal` method: restore every frame's grid
placement from the snapshot (falling back to a plain `frame.grid()` when the
snapshot has no entry or a `None` entry), restore pause/mute for every
controller except the active tile from the snapshots, then clear the active
tile and all saved maps.  It does not change `mode`. -/
def exitTileFullscreenInternal (s : AppState) : AppState :=
  if s.fs.mode ≠ .TILE then s
  else
    let frames1 := s.frames.map fun p =>
      (p.1, restoreFrame s.fs.saved_grid_info p.1 p.2)
    let cells1 := s.cells.map fun p =>
      (p.1, restoreCell s.fs.saved_pause_states s.fs.saved_mute_states s.fs.active_tile p.1 p.2)
    { s with
      frames := frames1
      cells := cells1
      fs := { s.fs with
        active_tile := none
        saved_grid_info := []
        saved_pause_states := []
        saved_mute_states := [] } }

/-- The `_exit_fullscreen` method: exit fullscreen (both global and tile).
If the mode is TILE it first runs the internal tile exit; then it clears the
window fullscreen attribute, re-attaches the side panel (restoring the saved
sash position) when hidden, and sets mode NORMAL with the forced-global flag
cleared. -/
def exitFullscreen (s : AppState) : AppState :=
  if s.fs.mode = .NORMAL then s
  else
    let s1 := if s.fs.mode = .TILE then exitTileFullscreenInternal s else s
    let s2 := { s1 with windowFullscreen := false }
    let s3 :=
      if ¬ s2.fs.side_visible then
        { s2 with
          panelAttached := true
          sashPos := s2.fs.saved_sash_pos.getD s2.sashPos
          fs := { s2.fs with side_visible := true } }
      else s2
    { s3 with fs := { s3.fs with mode := .NORMAL, tile_forced_global := false } }

/-- The `_exit_tile_fullscreen` method (public interface): when in TILE mode,
run the internal exit, then exit global fullscreen only if it was forced by
tile mode. -/
def exitTileFullscreen (s : AppState) : AppState :=
  if s.fs.mode ≠ .TILE then s
  else
    let s1 := exitTileFullscreenInternal s
    if s1.fs.tile_forced_global then exitFullscreen s1 else s1

/-- The grid options `_enter_tile_fullscreen` gives the selected frame:
`row=0, column=0, rowspan=max(1, rows), columnspan=max(1, cols),
sticky="nsew", padx=0, pady=0`. -/
def tileLayout (rows cols : Nat) : GridInfo :=
  { row := 0, column := 0, rowspan := max 1 rows, columnspan := max 1 cols
    sticky := "nsew", padx := 0, pady := 0 }

/-- Body of the save-and-modify loop in `_enter_tile_fullscreen`: the target
cell is skipped (`continue`); every other cell is forced paused and muted. -/
def pauseMuteNonTarget (cell k : CellKey) (c : CellState) : CellState :=
  if k = cell then c else { c with pause := true, mute := true }

/-- The `sel_ctrl.set_property("mute", False)` step after the loop: only the
target cell is unmuted. -/
def unmuteTarget (cell k : CellKey) (c : CellState) : CellState :=
  if k = cell then { c with mute := false } else c

/-- The frame step of `_enter_tile_fullscreen`: every non-target frame is
removed from the grid (`grid_remove` keeps its options); the target frame is
re-gridded over the whole wall. -/
def hideNonTarget (cell : CellKey) (rows cols : Nat) (k : CellKey) (f : FrameState) :
    FrameState :=
  if k = cell then { f with visible := true, layout := tileLayout rows cols }
  else { f with visible := false }

/-- The `_enter_tile_fullscreen` method.  If the cell is unknown it is a
no-op.  Otherwise: from NORMAL it first enters global fullscreen and marks
`tile_forced_global`; it snapshots every frame's grid options; it snapshots
pause/mute of every non-target controller (recording `False` when the read
yields no data) and forces them paused and muted; it unmutes the target;
it hides every non-target frame and expands the target over the whole grid;
finally the mode becomes TILE with the target as active tile. -/
def enterTileFullscreen (cell : CellKey) (s : AppState) : AppState :=
  if (dictGet s.frames cell).isNone then s
  else
    let s1 :=
      if s.fs.mode = .NORMAL then
        let t := enterFullscreen s
        { t with fs := { t.fs with tile_forced_global := true } }
      else s
    let savedGrid := s1.frames.map fun p => (p.1, saveFrameGridInfo p.2)
    let savedPause := s1.cells.filterMap fun p =>
      if p.1 = cell then none else some (p.1, (readPause p.2).getD false)
    let savedMute := s1.cells.filterMap fun p =>
      if p.1 = cell then none else some (p.1, (readMute p.2).getD false)
    let cells1 := s1.cells.map fun p => (p.1, pauseMuteNonTarget cell p.1 p.2)
    let cells2 := cells1.map fun p => (p.1, unmuteTarget cell p.1 p.2)
    let frames1 := s1.frames.map fun p =>
      (p.1, hideNonTarget cell s1.currentRows s1.currentCols p.1 p.2)
    { s1 with
      cells := cells2
      frames := frames1
      fs := { s1.fs with
        saved_grid_info := savedGrid
        saved_pause_states := savedPause
        saved_mute_states := savedMute
        mode := .TILE
        active_tile := some cell } }

/-- The `_emergency_reset` method: clear the window fullscreen attribute,
re-attach the side panel if hidden (the flag itself is fixed by the final
`reset`), re-grid every frame (restoring a saved placement when one exists),
force mute and pause to `False` on every controller, and reset the
fullscreen state. -/
def emergencyReset (s : AppState) : AppState :=
  let s1 := { s with windowFullscreen := false }
  let s2 := if ¬ s1.fs.side_visible then { s1 with panelAttached := true } else s1
  let frames1 := s2.frames.map fun p =>
    (p.1, restoreFrame s2.fs.saved_grid_info p.1 p.2)
  let cells1 := s2.cells.map fun p => (p.1, { p.2 with mute := false, pause := false })
  { s2 with frames := frames1, cells := cells1, fs := s2.fs.reset }

/-! ### MPV IPC controller (`MPVController.send_command`) -/

/-- A JSON value on the MPV IPC wire (the fragment the controller uses). -/
inductive JsonVal where
  | null
  | bool (b : Bool)
  | num (n : Int)
  | str (s : String)
  deriving DecidableEq, Repr

/-- A decoded JSON object, as `json.loads` returns for one response line. -/
abbrev MpvDict := List (String × JsonVal)

/-- One attempted IPC exchange, as the outside world presents it to
`send_command`: each stage of the `try` block (socket connect, send,
receive, `json.loads`) either succeeds or raises with a description
(`str(e)`).  Timeouts, refused connections and malformed JSON responses
are all `Except.error` values of the respective stage. -/
structure IPCAttempt where
  connect : Except String Unit
  sendLine : Except String Unit
  recvData : Except String String
  parse : String → Except String MpvDict

/-- The dict `{"error": str(e)}` the except-clause returns. -/
def errDict (desc : String) : MpvDict := [("error", JsonVal.str desc)]

namespace MPVController

/-- The `MPVController.send_command` method: run the four stages of the
`try` block in order; the first stage that raises makes the whole call
return `{"error": str(e)}` instead of propagating the exception; if all
stages succeed the parsed response dict is returned.  The function is
total: no failure is raised to the caller. -/
def send_command (w : IPCAttempt) (args : List JsonVal) : MpvDict :=
  match w.connect with
  | .error e => errDict e
  | .ok _ =>
    match w.sendLine with
    | .error e => errDict e
    | .ok _ =>
      match w.recvData with
      | .error e => errDict e
      | .ok raw =>
        match w.parse raw with
        | .error e => errDict e
        | .ok d => d

end MPVController

/-! ### Broadcast bus (`send_ipc_command`, `broadcast`, CLI dispatch) -/

/-- Environment of one broadcast invocation: the `MPV_GRID_SOCKET_GLOB`
variable, the filesystem's answer to `glob.glob`, and which socket paths
accept a connect-and-send (stale or nonexistent sockets answer `false`). -/
structure BroadcastEnv where
  envGlob : Option String
  globMatches : String → List String
  connectOk : String → Bool

/-- The module-level `send_ipc_command` function: connect to the socket and
send one JSON command line, returning `True` on success; every exception is
caught and turned into `False`.  Whether the exchange succeeds depends only
on the socket's state, not on the command payload. -/
def send_ipc_command (env : BroadcastEnv) (sp : String) (command : List String) : Bool :=
  env.connectOk sp

/-- Python's `sorted` on the glob matches (lexicographic string order). -/
def sortStrings (l : List String) : List String :=
  l.mergeSort (fun a b => !(b < a))

/-- Python's `str.lower()` on the action token (ASCII case folding, which
coincides with Python's for the ASCII action names involved). -/
def strLower (s : String) : String := ⟨s.data.map Char.toLower⟩

/-- Python's `str.strip()`: drop whitespace from both ends. -/
def strStrip (s : String) : String :=
  ⟨((s.data.dropWhile Char.isWhitespace).reverse.dropWhile Char.isWhitespace).reverse⟩

/-- Normalization and dispatch at the top of `broadcast`: strip and
lowercase the action, then map `next` / `shuffle` to the fixed
script-message command; any other action raises `SystemExit` with a usage
message, rendered here as `Except.error`. -/
def resolveCommand (action : String) : Except String (List String) :=
  let a := strLower (strStrip action)
  if a = "next" then .ok ["script-message", "grid-sync-next"]
  else if a = "shuffle" then .ok ["script-message", "grid-sync-shuffle"]
  else .error ("Unknown broadcast action: " ++ a ++ " (expected: next|shuffle)")

/-- Glob resolution in `broadcast`: an explicit non-empty glob wins,
otherwise the environment variable, otherwise `/tmp/mpv-grid-*.sock`
(mirroring `sock_glob or os.environ.get(...)`, where an empty override is
falsy). -/
def resolveGlob (env : BroadcastEnv) (sockGlob : Option String) : String :=
  match sockGlob with
  | some s => if s.isEmpty then env.envGlob.getD "/tmp/mpv-grid-*.sock" else s
  | none => env.envGlob.getD "/tmp/mpv-grid-*.sock"

/-- The `broadcast` function: resolve the command, enumerate the sockets
matching the glob in sorted order, send the command to each, and return how
many sends succeeded (`sum` of the booleans); individual failures are
ignored. -/
def broadcast (env : BroadcastEnv) (action : String) (sockGlob : Option String) :
    Except String Nat :=
  match resolveCommand action with
  | .error e => .error e
  | .ok cmd =>
    .ok (((sortStrings (env.globMatches (resolveGlob env sockGlob))).map
      (fun p => send_ipc_command env p cmd)).count true)

/-- The sequence of (socket, command) sends the `broadcast` loop attempts,
in order: every matched socket is attempted with the single resolved
command (an empty list when the action does not resolve). -/
def broadcastSends (env : BroadcastEnv) (action : String) (sockGlob : Option String) :
    List (String × List String) :=
  match resolveCommand action with
  | .error _ => []
  | .ok cmd =>
    (sortStrings (env.globMatches (resolveGlob env sockGlob))).map fun p => (p, cmd)

/-- The valid values of `--broadcast` in `main`'s argument parser
(`choices=["next", "shuffle"]`). -/
def argparseBroadcastChoices : List String := ["next", "shuffle"]

/-- The CLI broadcast entry point: `main` parses `--broadcast` with
`choices=["next", "shuffle"]`, so any other action name makes argparse exit
with a usage error (`SystemExit 2`) before `broadcast` runs; a valid action
is passed to `broadcast` together with the optional `--glob` override. -/
def mainBroadcast (env : BroadcastEnv) (action : String) (sockGlob : Option String) :
    Except String Nat :=
  if action ∈ argparseBroadcastChoices then broadcast env action sockGlob
  else .error ("argument --broadcast: invalid choice: " ++ action ++
    " (choose from next, shuffle)")

/-! ### Rename propagator (`_rename_selected_current`) -/

/-- A resolved local file path, split as directory plus basename, so that
`Path.with_name` (replace the basename) is expressible. -/
structure FilePath where
  dir : String
  base : String
  deriving DecidableEq, Repr

/-- Index of the last occurrence of a character in a character list. -/
def lastIdxOf (c : Char) (cs : List Char) : Option Nat :=
  match cs.reverse.findIdx? (· = c) with
  | some j => some (cs.length - 1 - j)
  | none => none

/-- CPython's `PurePath.suffix` on a plain basename: the substring from the
last dot, provided that dot is neither the first nor the last character;
otherwise the empty string. -/
def pySuffix (s : String) : String :=
  match lastIdxOf '.' s.data with
  | some i => if 0 < i ∧ i < s.data.length - 1 then ⟨s.data.drop i⟩ else ""
  | none => ""

/-- The in-memory playlist patch of `_rename_selected_current`: `pl.index`
finds the first occurrence of the old path (a `ValueError`, i.e. no
occurrence, skips the playlist) and the entry at that index is overwritten
with the new path. -/
def renameInPlaylist (oldP newP : FilePath) (pl : List FilePath) : List FilePath :=
  match pl.findIdx? (· = oldP) with
  | some idx => pl.set idx newP
  | none => pl

/-- The loop over `self.playlists.items()` in `_rename_selected_current`:
every cell's in-memory playlist gets the patch. -/
def renamePlaylists (oldP newP : FilePath) (pls : List (CellKey × List FilePath)) :
    List (CellKey × List FilePath) :=
  pls.map fun p => (p.1, renameInPlaylist oldP newP p.2)

/-- How one invocation of `_rename_selected_current` ends, from the rename
dialog onward. -/
inductive RenameOutcome where
  | cancelled
  | invalidName
  | targetExists (p : FilePath)
  | renameFailed (desc : String)
  | renamed (p : FilePath)
  deriving DecidableEq, Repr

/-- Observable effects of one `_rename_selected_current` invocation: the
outcome reported to the user, the on-disk rename performed (if any), the
in-memory playlists afterwards, and the cells whose player-side playlist
was patched over IPC (the loop bodies calling `_replace_current_entry` or
`_update_playlist_entry_noncurrent`; their internal command sequences are
not modelled further). -/
structure RenameResult where
  outcome : RenameOutcome
  diskRename : Option (FilePath × FilePath)
  playlists : List (CellKey × List FilePath)
  playerUpdates : List CellKey
  deriving DecidableEq, Repr

/-- The `_rename_selected_current` method from the dialog result onward,
given the resolved current path `oldPath`, the dialog answer `newName`, the
filesystem's answer to `Path.exists`, whether `Path.rename` succeeds (with
`renameErr` the message when it raises), the playlists dict and the
controllers' keys.  An empty answer cancels; a name containing a path
separator is rejected; an extension is appended from the old path when the
new name has none; an existing target is rejected; a failing disk rename is
reported; otherwise the playlists are patched and every cell whose playlist
contained the old path and has a controller gets its player playlist
patched. -/
def renameSelectedCurrent (oldPath : FilePath) (newName : String)
    (fsHas : FilePath → Bool) (renameOk : Bool) (renameErr : String)
    (pls : List (CellKey × List FilePath)) (ctrls : List CellKey) : RenameResult :=
  if newName.data.isEmpty then ⟨.cancelled, none, pls, []⟩
  else if newName.data.contains '/' ∨ newName.data.contains '\\' then
    ⟨.invalidName, none, pls, []⟩
  else
    let targetName := if pySuffix newName ≠ "" then newName else newName ++ pySuffix oldPath.base
    let newPath : FilePath := ⟨oldPath.dir, targetName⟩
    if fsHas newPath then ⟨.targetExists newPath, none, pls, []⟩
    else if ¬ renameOk then ⟨.renameFailed renameErr, none, pls, []⟩
    else
      ⟨.renamed newPath, some (oldPath, newPath), renamePlaylists oldPath newPath pls,
        (pls.filter fun p => oldPath ∈ p.2 ∧ p.1 ∈ ctrls).map (·.1)⟩

/-! ### Wall spawner (`_start_grid` / `_spawn_cell`) -/

/-- The wall-instance identifier `self.grid_id`, built in `__init__` as
`f"{os.getpid()}-{int(time.time())}"`. -/
def gridIdOf (pid startTime : Nat) : String :=
  Nat.repr pid ++ "-" ++ Nat.repr startTime

/-- The IPC socket path `_spawn_cell` allocates for one cell:
`f"/tmp/mpv-grid-{self.grid_id}-{row}-{col}.sock"`. -/
def socketPath (gridId : String) (row col : Nat) : String :=
  "/tmp/mpv-grid-" ++ gridId ++ "-" ++ Nat.repr row ++ "-" ++ Nat.repr col ++ ".sock"

/-- The cell coordinates `_start_grid` iterates over, in loop order
(`for row in range(rows): for col in range(cols)`). -/
def gridCoords (rows cols : Nat) : List CellKey :=
  (List.range rows).flatMap fun r => (List.range cols).map fun c => (r, c)

/-- One Grid Registry entry produced by `_spawn_cell`: the coordinate, the
socket path bound to the spawned process and its `MPVController`, and the
cell's (independently shuffled) playlist. -/
structure RegistryEntry where
  coord : CellKey
  socket : String
  playlist : List FilePath
  deriving DecidableEq, Repr

/-- The `_start_grid` spawn loop: one `_spawn_cell` per coordinate, each
appending one process, registering one controller under the coordinate with
the derived socket path, and storing that cell's playlist (the shuffled
copy of the scanned files, supplied here as an oracle per coordinate). -/
def startGrid (gridId : String) (rows cols : Nat) (playlistFor : CellKey → List FilePath) :
    List RegistryEntry :=
  (gridCoords rows cols).map fun rc =>
    { coord := rc, socket := socketPath gridId rc.1 rc.2, playlist := playlistFor rc }

/-! ### Decimal digit helpers (for socket path uniqueness) -/

/-- Numeric value of a decimal digit character. -/
def digitVal (c : Char) : Nat := c.toNat - '0'.toNat

/-- Value of a big-endian decimal digit string. -/
def digitsVal (cs : List Char) : Nat := cs.foldl (fun a c => 10 * a + digitVal c) 0

/-! ### Concrete walls and environments used by the witness theorems -/

/-- A 1x2 wall standing in plain GLOBAL fullscreen (entered with F11 from
NORMAL, so the side panel is hidden and `tile_forced_global` is false). -/
def sGlobalWall : AppState :=
  ⟨⟨.GLOBAL, none, some 700, false, [], [], [], false⟩,
   true, false, 700,
   [((0, 0), ⟨false, false, true, true⟩), ((0, 1), ⟨true, false, true, true⟩)],
   [((0, 0), ⟨true, ⟨0, 0, 1, 1, "nsew", 1, 1⟩, true⟩),
    ((0, 1), ⟨true, ⟨0, 1, 1, 1, "nsew", 1, 1⟩, true⟩)],
   1, 2⟩

/-- A 1x2 wall in NORMAL mode with mixed pause/mute flags, all readable. -/
def sNormalWall : AppState :=
  ⟨⟨.NORMAL, none, none, true, [], [], [], false⟩,
   false, true, 650,
   [((0, 0), ⟨false, true, true, true⟩), ((0, 1), ⟨true, false, true, true⟩)],
   [((0, 0), ⟨true, ⟨0, 0, 1, 1, "nsew", 1, 1⟩, true⟩),
    ((0, 1), ⟨true, ⟨0, 1, 1, 1, "nsew", 1, 1⟩, true⟩)],
   1, 2⟩

/-- A wall stuck mid-transition: TILE mode with a partially populated
snapshot (pause saved for one cell only, no layouts), side panel hidden. -/
def sPartialSnapshot : AppState :=
  ⟨⟨.TILE, some (0, 1), none, false, [], [((0, 0), true)], [], true⟩,
   true, false, 650,
   [((0, 0), ⟨true, true, true, true⟩), ((0, 1), ⟨false, false, true, true⟩)],
   [((0, 0), ⟨false, ⟨0, 0, 1, 1, "nsew", 1, 1⟩, true⟩),
    ((0, 1), ⟨true, ⟨0, 0, 1, 2, "nsew", 0, 0⟩, true⟩)],
   1, 2⟩

/-- A 1x2 wall in NORMAL mode whose cell (0, 1) answers no IPC property
reads (its pause is actually true and its mute actually false). -/
def sReadFailWall : AppState :=
  ⟨⟨.NORMAL, none, none, true, [], [], [], false⟩,
   false, true, 650,
   [((0, 0), ⟨false, true, true, true⟩), ((0, 1), ⟨true, false, false, false⟩)],
   [((0, 0), ⟨true, ⟨0, 0, 1, 1, "nsew", 1, 1⟩, true⟩),
    ((0, 1), ⟨true, ⟨0, 1, 1, 1, "nsew", 1, 1⟩, true⟩)],
   1, 2⟩

/-- An IPC exchange where connect, send and receive succeed but the response
line is not valid JSON, so `json.loads` raises. -/
def wMalformedIPC : IPCAttempt :=
  { connect := .ok (), sendLine := .ok (), recvData := .ok "bogus"
    parse := fun _ => .error "Expecting value: line 1 column 1 (char 0)" }

/-- A broadcast environment with no sockets at all. -/
def envNoSockets : BroadcastEnv :=
  { envGlob := none, globMatches := fun _ => [], connectOk := fun _ => false }

/-- Sample media paths for the rename witnesses. -/
def pathA : FilePath := ⟨"/media", "alpha.mp4"⟩

def pathB : FilePath := ⟨"/media", "beta.mp4"⟩

def pathC : FilePath := ⟨"/media", "gamma.mkv"⟩

/-- Playlists where `pathA` occurs in one of the two cells. -/
def plsRenameEx : List (CellKey × List FilePath) :=
  [((0, 0), [pathC, pathA]), ((0, 1), [pathC, pathB])]

/-- The current file of the rename witnesses. -/
def oldMovie : FilePath := ⟨"/media", "movie.mp4"⟩

/-- A filesystem on which only `/media/copy.mp4` exists. -/
def fsHasCopy : FilePath → Bool := fun p => p = ⟨"/media", "copy.mp4"⟩

/-! ## Association list (dict) lemmas -/

lemma dictGet_eq_some_mem {K α : Type} [DecidableEq K] :
    ∀ {l : List (K × α)} {k : K} {v : α}, dictGet l k = some v → (k, v) ∈ l := by
  intro l
  induction l with
  | nil => intro k v h; simp [dictGet] at h
  | cons p rest ih =>
    intro k v h
    rw [dictGet] at h
    by_cases hk : p.1 = k
    · rw [if_pos hk] at h
      cases h
      subst hk
      exact List.mem_cons_self _ _
    · rw [if_neg hk] at h
      exact List.mem_cons_of_mem _ (ih h)

lemma dictGet_map_keyed {K α β : Type} [DecidableEq K] (f : K → α → β) :
    ∀ (l : List (K × α)) (k : K),
      dictGet (l.map fun p => (p.1, f p.1 p.2)) k = (dictGet l k).map (f k) := by
  intro l
  induction l with
  | nil => intro k; rfl
  | cons p rest ih =>
    intro k
    by_cases hk : p.1 = k
    · subst hk; simp [dictGet]
    · simp [dictGet, hk, ih k]

lemma dictGet_filterMap_keyed {K α β : Type} [DecidableEq K] (cell : K) (f : α → β) :
    ∀ (l : List (K × α)) (k : K), k ≠ cell →
      dictGet (l.filterMap fun p => if p.1 = cell then none else some (p.1, f p.2)) k
        = (dictGet l k).map f := by
  intro l
  induction l with
  | nil => intro k _; rfl
  | cons p rest ih =>
    intro k hk
    by_cases hc : p.1 = cell
    · have hpk : p.1 ≠ k := by rw [hc]; exact Ne.symm hk
      simp [dictGet, hc, hpk, Ne.symm hk, ih k hk]
    · by_cases hpk : p.1 = k
      · subst hpk; simp [dictGet, hc]
      · simp [dictGet, hc, hpk, ih k hk]

/-! ## Fullscreen state machine lemmas -/

lemma isNone_false_of_ne_none {α : Type} {o : Option α} (h : o ≠ none) :
    o.isNone = false := by
  cases o with
  | none => exact absurd rfl h
  | some v => rfl

lemma enterFullscreen_stable (s : AppState) :
    (enterFullscreen s).cells = s.cells ∧ (enterFullscreen s).frames = s.frames
      ∧ (enterFullscreen s).currentRows = s.currentRows
      ∧ (enterFullscreen s).currentCols = s.currentCols := by
  unfold enterFullscreen
  split <;> simp

lemma enterTileFullscreen_eq (cell : CellKey) (s : AppState)
    (hframes : (dictGet s.frames cell).isNone = false) :
    enterTileFullscreen cell s =
      { fs :=
        { mode := .TILE
          active_tile := some cell
          saved_sash_pos := if s.fs.mode = .NORMAL then some s.sashPos else s.fs.saved_sash_pos
          side_visible := if s.fs.mode = .NORMAL then false else s.fs.side_visible
          saved_grid_info := s.frames.map fun p => (p.1, saveFrameGridInfo p.2)
          saved_pause_states := s.cells.filterMap fun p =>
            if p.1 = cell then none else some (p.1, (readPause p.2).getD false)
          saved_mute_states := s.cells.filterMap fun p =>
            if p.1 = cell then none else some (p.1, (readMute p.2).getD false)
          tile_forced_global := if s.fs.mode = .NORMAL then true else s.fs.tile_forced_global }
        windowFullscreen := if s.fs.mode = .NORMAL then true else s.windowFullscreen
        panelAttached :=
          if s.fs.mode = .NORMAL ∧ s.fs.side_visible then false else s.panelAttached
        sashPos := s.sashPos
        cells := (s.cells.map fun p => (p.1, pauseMuteNonTarget cell p.1 p.2)).map
          fun p => (p.1, unmuteTarget cell p.1 p.2)
        frames := s.frames.map fun p =>
          (p.1, hideNonTarget cell s.currentRows s.currentCols p.1 p.2)
        currentRows := s.currentRows
        currentCols := s.currentCols } := by
  by_cases hm : s.fs.mode = .NORMAL
  · by_cases hv : s.fs.side_visible
    · simp [enterTileFullscreen, enterFullscreen, hframes, hm, hv]
    · simp [enterTileFullscreen, enterFullscreen, hframes, hm, hv]
  · have hm2 : s.fs.mode ≠ .NORMAL := hm
    simp [enterTileFullscreen, hframes, hm2, hm]

lemma exitTileFullscreenInternal_eq (s : AppState) (h : s.fs.mode = .TILE) :
    exitTileFullscreenInternal s =
      { s with
        frames := s.frames.map fun p => (p.1, restoreFrame s.fs.saved_grid_info p.1 p.2)
        cells := s.cells.map fun p =>
          (p.1, restoreCell s.fs.saved_pause_states s.fs.saved_mute_states s.fs.active_tile p.1 p.2)
        fs := { s.fs with
          active_tile := none
          saved_grid_info := []
          saved_pause_states := []
          saved_mute_states := [] } } := by
  simp [exitTileFullscreenInternal, h]

lemma restoreCell_empty (k : CellKey) (c : CellState) : restoreCell [] [] none k c = c := by
  simp [restoreCell, dictGet]

lemma exitFullscreen_cells (s : AppState) :
    (exitFullscreen s).cells
      = if s.fs.mode = .TILE then (exitTileFullscreenInternal s).cells else s.cells := by
  unfold exitFullscreen
  by_cases h1 : s.fs.mode = .NORMAL
  · simp [h1]
  · by_cases h2 : s.fs.mode = .TILE <;> simp [h1, h2, apply_ite]

lemma tileExit_cells_lookup (s : AppState) (h : s.fs.mode = .TILE) (k : CellKey) :
    dictGet (exitTileFullscreen s).cells k
      = (dictGet s.cells k).map
          (restoreCell s.fs.saved_pause_states s.fs.saved_mute_states s.fs.active_tile k) := by
  unfold exitTileFullscreen
  rw [if_neg (not_not_intro h)]
  have hint := exitTileFullscreenInternal_eq s h
  have hmode2 : (exitTileFullscreenInternal s).fs.mode = .TILE := by rw [hint]; exact h
  have hcells : dictGet (exitTileFullscreenInternal s).cells k
      = (dictGet s.cells k).map
          (restoreCell s.fs.saved_pause_states s.fs.saved_mute_states s.fs.active_tile k) := by
    rw [hint]
    exact dictGet_map_keyed _ s.cells k
  by_cases hf : (exitTileFullscreenInternal s).fs.tile_forced_global
  · rw [if_pos hf, exitFullscreen_cells, if_pos hmode2,
      exitTileFullscreenInternal_eq _ hmode2]
    rw [hint]
    simp only []
    rw [dictGet_map_keyed, dictGet_map_keyed]
    rcases hdg : dictGet s.cells k with _ | c
    · rfl
    · simp [restoreCell_empty]
  · rw [if_neg hf]
    exact hcells

lemma enterTile_savedPause_lookup (s : AppState) (cell rc : CellKey) (c0 : CellState)
    (hframes : (dictGet s.frames cell).isNone = false)
    (hrc : rc ≠ cell) (hc : dictGet s.cells rc = some c0) :
    dictGet (enterTileFullscreen cell s).fs.saved_pause_states rc
      = some ((readPause c0).getD false) := by
  rw [enterTileFullscreen_eq cell s hframes]
  simp only []
  rw [dictGet_filterMap_keyed cell (fun c => (readPause c).getD false) s.cells rc hrc, hc]
  rfl

lemma enterTile_savedMute_lookup (s : AppState) (cell rc : CellKey) (c0 : CellState)
    (hframes : (dictGet s.frames cell).isNone = false)
    (hrc : rc ≠ cell) (hc : dictGet s.cells rc = some c0) :
    dictGet (enterTileFullscreen cell s).fs.saved_mute_states rc
      = some ((readMute c0).getD false) := by
  rw [enterTileFullscreen_eq cell s hframes]
  simp only []
  rw [dictGet_filterMap_keyed cell (fun c => (readMute c).getD false) s.cells rc hrc, hc]
  rfl

lemma tile_roundtrip_lookup (s : AppState) (cell rc : CellKey) (c0 : CellState)
    (hframes : (dictGet s.frames cell).isNone = false)
    (hrc : rc ≠ cell) (hc : dictGet s.cells rc = some c0) :
    dictGet (exitTileFullscreen (enterTileFullscreen cell s)).cells rc
      = some { c0 with pause := (readPause c0).getD false, mute := (readMute c0).getD false } := by
  have hmid := enterTileFullscreen_eq cell s hframes
  have hmode : (enterTileFullscreen cell s).fs.mode = .TILE := by rw [hmid]
  rw [tileExit_cells_lookup _ hmode]
  have hcells : dictGet (enterTileFullscreen cell s).cells rc
      = some { c0 with pause := true, mute := true } := by
    rw [hmid]
    simp only []
    rw [dictGet_map_keyed, dictGet_map_keyed, hc]
    simp [pauseMuteNonTarget, unmuteTarget, hrc]
  have hsp := enterTile_savedPause_lookup s cell rc c0 hframes hrc hc
  have hsm := enterTile_savedMute_lookup s cell rc c0 hframes hrc hc
  have hact : (enterTileFullscreen cell s).fs.active_tile = some cell := by rw [hmid]
  rw [hcells, hact]
  simp [restoreCell, hsp, hsm, hrc]

lemma enterTile_target_lookup (s : AppState) (cell : CellKey) (c0 : CellState)
    (hframes : (dictGet s.frames cell).isNone = false)
    (hc : dictGet s.cells cell = some c0) :
    dictGet (enterTileFullscreen cell s).cells cell = some { c0 with mute := false } := by
  rw [enterTileFullscreen_eq cell s hframes]
  simp only []
  rw [dictGet_map_keyed, dictGet_map_keyed, hc]
  simp [pauseMuteNonTarget, unmuteTarget]

/-! ## Claim theorems -/

/-- C1 (code bug witness): on a wall standing in GLOBAL fullscreen with
`tile_forced_global` false, entering tile fullscreen for cell (0, 0) and
then exiting it through the public `_exit_tile_fullscreen` leaves the mode
at TILE with the active tile cleared — the claimed return to GLOBAL does
not happen, because `_exit_tile_fullscreen_internal` never writes `mode`
and the `tile_forced_global` branch is the only path that does. -/
theorem tile_exit_from_global_stays_tile :
    (exitTileFullscreen (enterTileFullscreen (0, 0) sGlobalWall)).fs.mode = FullscreenMode.TILE
    ∧ (exitTileFullscreen (enterTileFullscreen (0, 0) sGlobalWall)).fs.active_tile = none
    ∧ (exitTileFullscreen (enterTileFullscreen (0, 0) sGlobalWall)).fs.tile_forced_global = false
    ∧ FullscreenMode.TILE ≠ FullscreenMode.GLOBAL := by
  refine ⟨rfl, rfl, rfl, by decide⟩

/-- C2: on any wall with at least two cells whose non-target pause/mute
reads all yield data, entering tile fullscreen for a cell and exiting it
restores every other cell's pause and mute flags to their pre-tile values,
and immediately after entry the target cell is unmuted with its pause flag
untouched regardless of its prior value. -/
theorem tile_roundtrip_restores_flags (s : AppState) (cell : CellKey)
    (hframes : dictGet s.frames cell ≠ none)
    (hN : 2 ≤ s.cells.length)
    (hread : ∀ p ∈ s.cells, p.1 ≠ cell → p.2.pauseReadable = true ∧ p.2.muteReadable = true) :
    (∀ rc c0, rc ≠ cell → dictGet s.cells rc = some c0 →
        dictGet (exitTileFullscreen (enterTileFullscreen cell s)).cells rc = some c0)
    ∧ ∀ c0, dictGet s.cells cell = some c0 →
        dictGet (enterTileFullscreen cell s).cells cell
          = some ⟨c0.pause, false, c0.pauseReadable, c0.muteReadable⟩ := by
  have hf := isNone_false_of_ne_none hframes
  constructor
  · intro rc c0 hrc hc
    have h1 := tile_roundtrip_lookup s cell rc c0 hf hrc hc
    obtain ⟨hp, hm⟩ := hread (rc, c0) (dictGet_eq_some_mem hc) hrc
    rcases c0 with ⟨a, b, pr, mr⟩
    have hp2 : pr = true := hp
    have hm2 : mr = true := hm
    subst hp2
    subst hm2
    rw [h1]
    simp [readPause, readMute]
  · intro c0 hc
    exact enterTile_target_lookup s cell c0 hf hc

/-- C2 witness: the property instantiated on a concrete 1x2 wall in NORMAL
mode, entering tile fullscreen for cell (0, 1). -/
theorem tile_roundtrip_restores_flags_witness :
    (dictGet sNormalWall.frames (0, 1) ≠ none
      ∧ 2 ≤ sNormalWall.cells.length
      ∧ ∀ p ∈ sNormalWall.cells, p.1 ≠ ((0, 1) : CellKey) →
          p.2.pauseReadable = true ∧ p.2.muteReadable = true)
    ∧ ((∀ rc c0, rc ≠ ((0, 1) : CellKey) → dictGet sNormalWall.cells rc = some c0 →
        dictGet (exitTileFullscreen (enterTileFullscreen (0, 1) sNormalWall)).cells rc = some c0)
      ∧ ∀ c0, dictGet sNormalWall.cells (0, 1) = some c0 →
          dictGet (enterTileFullscreen (0, 1) sNormalWall).cells (0, 1)
            = some ⟨c0.pause, false, c0.pauseReadable, c0.muteReadable⟩) :=
  ⟨⟨by decide, by decide, by decide⟩,
    tile_roundtrip_restores_flags sNormalWall (0, 1) (by decide) (by decide) (by decide)⟩

/-- C10: if a non-target cell's pause (resp. mute) read yields no data at
tile entry, the snapshot records `False` for that flag, and after the
enter/exit round trip that cell's pause (resp. mute) is `false` instead of
its actual pre-tile value. -/
theorem tile_entry_read_failure_defaults_false (s : AppState) (cell rc : CellKey)
    (c0 : CellState) (hframes : dictGet s.frames cell ≠ none) (hrc : rc ≠ cell)
    (hc : dictGet s.cells rc = some c0) :
    (c0.pauseReadable = false →
       dictGet (enterTileFullscreen cell s).fs.saved_pause_states rc = some false
       ∧ (dictGet (exitTileFullscreen (enterTileFullscreen cell s)).cells rc).map
           CellState.pause = some false)
    ∧ (c0.muteReadable = false →
       dictGet (enterTileFullscreen cell s).fs.saved_mute_states rc = some false
       ∧ (dictGet (exitTileFullscreen (enterTileFullscreen cell s)).cells rc).map
           CellState.mute = some false) := by
  have hf := isNone_false_of_ne_none hframes
  have h1 := tile_roundtrip_lookup s cell rc c0 hf hrc hc
  constructor
  · intro hpr
    constructor
    · rw [enterTile_savedPause_lookup s cell rc c0 hf hrc hc]
      simp [readPause, hpr]
    · rw [h1]
      simp [readPause, hpr]
  · intro hmr
    constructor
    · rw [enterTile_savedMute_lookup s cell rc c0 hf hrc hc]
      simp [readMute, hmr]
    · rw [h1]
      simp [readMute, hmr]

/-- C10 witness: the property instantiated on a concrete wall whose cell
(0, 1) answers no property reads, entering tile fullscreen for (0, 0). -/
theorem tile_entry_read_failure_defaults_false_witness :
    (dictGet sReadFailWall.frames (0, 0) ≠ none
      ∧ ((0, 1) : CellKey) ≠ (0, 0)
      ∧ dictGet sReadFailWall.cells (0, 1) = some ⟨true, false, false, false⟩
      ∧ (⟨true, false, false, false⟩ : CellState).pauseReadable = false)
    ∧ ((⟨true, false, false, false⟩ : CellState).pauseReadable = false →
       dictGet (enterTileFullscreen (0, 0) sReadFailWall).fs.saved_pause_states (0, 1)
         = some false
       ∧ (dictGet (exitTileFullscreen (enterTileFullscreen (0, 0) sReadFailWall)).cells
           (0, 1)).map CellState.pause = some false) :=
  ⟨⟨by decide, by decide, by decide, by decide⟩,
    (tile_entry_read_failure_defaults_false sReadFailWall (0, 0) (0, 1)
      ⟨true, false, false, false⟩ (by decide) (by decide) (by decide)).1⟩

lemma restoreFrame_again (sg : List (CellKey × Option GridInfo)) (k : CellKey)
    (f : FrameState) : restoreFrame [] k (restoreFrame sg k f) = restoreFrame sg k f := by
  rcases hdg : dictGet sg k with _ | og
  · simp [restoreFrame, hdg, dictGet]
  · rcases og with _ | gi <;> simp [restoreFrame, hdg, dictGet]

lemma emergencyReset_eq (s : AppState) :
    emergencyReset s =
      { fs := s.fs.reset
        windowFullscreen := false
        panelAttached := if s.fs.side_visible then s.panelAttached else true
        sashPos := s.sashPos
        cells := s.cells.map fun p => (p.1, { p.2 with mute := false, pause := false })
        frames := s.frames.map fun p => (p.1, restoreFrame s.fs.saved_grid_info p.1 p.2)
        currentRows := s.currentRows
        currentCols := s.currentCols } := by
  by_cases hsv : s.fs.side_visible <;> simp [emergencyReset, hsv]

lemma emergencyReset_idem (s : AppState) :
    emergencyReset (emergencyReset s) = emergencyReset s := by
  have hframes : ∀ (l : List (CellKey × FrameState)) (sg : List (CellKey × Option GridInfo)),
      ((l.map fun p => (p.1, restoreFrame sg p.1 p.2)).map
          fun p => (p.1, restoreFrame [] p.1 p.2))
        = l.map fun p => (p.1, restoreFrame sg p.1 p.2) := by
    intro l sg
    rw [List.map_map]
    apply List.map_congr_left
    intro p _
    simp [Function.comp, restoreFrame_again]
  have hcells : ∀ l : List (CellKey × CellState),
      ((l.map fun p => (p.1, { p.2 with mute := false, pause := false })).map
          fun p => (p.1, { p.2 with mute := false, pause := false }))
        = l.map fun p => (p.1, { p.2 with mute := false, pause := false }) := by
    intro l
    rw [List.map_map]
    apply List.map_congr_left
    intro p _
    rfl
  rw [emergencyReset_eq (emergencyReset s), emergencyReset_eq s]
  simp [FullscreenState.reset, hframes, hcells]

/-- C3: from every starting state (empty or partially populated snapshots
included) the emergency reset — a total function, every risky step in the
source being wrapped in `suppress` — ends with mode NORMAL, the active tile
cleared, the side panel visible, the window fullscreen attribute cleared,
all three saved maps empty, the forced-global flag false, and every cell's
mute and pause forced to `false`; running it twice gives the same state as
running it once.  The one assumption is the code invariant that a state
claiming the side panel visible actually has it attached. -/
theorem emergency_reset_recovers (s : AppState)
    (hpanel : s.fs.side_visible = true → s.panelAttached = true) :
    (emergencyReset s).fs.mode = FullscreenMode.NORMAL
    ∧ (emergencyReset s).fs.active_tile = none
    ∧ (emergencyReset s).fs.side_visible = true
    ∧ (emergencyReset s).panelAttached = true
    ∧ (emergencyReset s).windowFullscreen = false
    ∧ (emergencyReset s).fs.saved_grid_info = []
    ∧ (emergencyReset s).fs.saved_pause_states = []
    ∧ (emergencyReset s).fs.saved_mute_states = []
    ∧ (emergencyReset s).fs.tile_forced_global = false
    ∧ (∀ p ∈ (emergencyReset s).cells, p.2.pause = false ∧ p.2.mute = false)
    ∧ emergencyReset (emergencyReset s) = emergencyReset s := by
  refine ⟨?_, ?_, ?_, ?_, ?_, ?_, ?_, ?_, ?_, ?_, emergencyReset_idem s⟩
  · rw [emergencyReset_eq s]; rfl
  · rw [emergencyReset_eq s]; rfl
  · rw [emergencyReset_eq s]; rfl
  · rw [emergencyReset_eq s]
    by_cases hsv : s.fs.side_visible
    · simp [hsv, hpanel hsv]
    · simp [hsv]
  · rw [emergencyReset_eq s]
  · rw [emergencyReset_eq s]; rfl
  · rw [emergencyReset_eq s]; rfl
  · rw [emergencyReset_eq s]; rfl
  · rw [emergencyReset_eq s]; rfl
  · rw [emergencyReset_eq s]
    intro p hp
    simp only [List.mem_map] at hp
    obtain ⟨q, _, hq⟩ := hp
    rw [← hq]
    exact ⟨rfl, rfl⟩

/-- C3 witness: emergency reset applied to a wall stuck in TILE mode with a
partially populated snapshot and a hidden side panel. -/
theorem emergency_reset_recovers_witness :
    (sPartialSnapshot.fs.side_visible = true → sPartialSnapshot.panelAttached = true)
    ∧ (emergencyReset sPartialSnapshot).fs.mode = FullscreenMode.NORMAL
    ∧ (emergencyReset sPartialSnapshot).fs.active_tile = none
    ∧ (emergencyReset sPartialSnapshot).fs.side_visible = true
    ∧ (emergencyReset sPartialSnapshot).panelAttached = true
    ∧ (emergencyReset sPartialSnapshot).windowFullscreen = false
    ∧ (emergencyReset sPartialSnapshot).fs.saved_grid_info = []
    ∧ (emergencyReset sPartialSnapshot).fs.saved_pause_states = []
    ∧ (emergencyReset sPartialSnapshot).fs.saved_mute_states = []
    ∧ (emergencyReset sPartialSnapshot).fs.tile_forced_global = false
    ∧ (∀ p ∈ (emergencyReset sPartialSnapshot).cells, p.2.pause = false ∧ p.2.mute = false)
    ∧ emergencyReset (emergencyReset sPartialSnapshot) = emergencyReset sPartialSnapshot :=
  ⟨by decide, emergency_reset_recovers sPartialSnapshot (by decide)⟩

lemma sortStrings_map_count_true (l : List String) (f : String → Bool) :
    ((sortStrings l).map f).count true = l.countP f := by
  rw [List.count_eq_countP, List.countP_map]
  rw [sortStrings, (List.mergeSort_perm l (fun a b => !(b < a))).countP_eq]
  exact List.countP_congr fun a _ => by cases h : f a <;> simp [h]

/-- C4: for every environment (glob matches and per-socket connect success
both arbitrary) and every glob argument, broadcasting `next` (resp.
`shuffle`) attempts exactly one send of the single fixed script-message
command to each matched socket, in sorted order, and returns — without
raising, whatever subset of the sockets is stale — exactly the number of
matched sockets on which connect-and-send succeeds. -/
theorem broadcast_reaches_live_sockets (env : BroadcastEnv) (sockGlob : Option String) :
    broadcast env "next" sockGlob
      = .ok ((env.globMatches (resolveGlob env sockGlob)).countP env.connectOk)
    ∧ broadcastSends env "next" sockGlob
      = (sortStrings (env.globMatches (resolveGlob env sockGlob))).map
          (fun p => (p, ["script-message", "grid-sync-next"]))
    ∧ broadcast env "shuffle" sockGlob
      = .ok ((env.globMatches (resolveGlob env sockGlob)).countP env.connectOk)
    ∧ broadcastSends env "shuffle" sockGlob
      = (sortStrings (env.globMatches (resolveGlob env sockGlob))).map
          (fun p => (p, ["script-message", "grid-sync-shuffle"])) := by
  have hn : resolveCommand "next" = .ok ["script-message", "grid-sync-next"] := rfl
  have hs : resolveCommand "shuffle" = .ok ["script-message", "grid-sync-shuffle"] := rfl
  refine ⟨?_, ?_, ?_, ?_⟩
  · simp only [broadcast, hn, sortStrings_map_count_true]
    rfl
  · simp only [broadcastSends, hn]
  · simp only [broadcast, hs, sortStrings_map_count_true]
    rfl
  · simp only [broadcastSends, hs]

/-- C5: every failure inside `send_command`'s `try` block — connect refused,
send or receive timing out, or the response line failing to parse as JSON —
makes the call return a result dict whose `error` field holds the failure's
description; being a total function of the attempt, it never raises to the
caller. -/
theorem send_command_returns_error_result (w : IPCAttempt) (args : List JsonVal)
    (d : String) :
    (w.connect = .error d →
        dictGet (MPVController.send_command w args) "error" = some (.str d))
    ∧ (w.connect = .ok () → w.sendLine = .error d →
        dictGet (MPVController.send_command w args) "error" = some (.str d))
    ∧ (w.connect = .ok () → w.sendLine = .ok () → w.recvData = .error d →
        dictGet (MPVController.send_command w args) "error" = some (.str d))
    ∧ ∀ raw, w.connect = .ok () → w.sendLine = .ok () → w.recvData = .ok raw →
        w.parse raw = .error d →
        dictGet (MPVController.send_command w args) "error" = some (.str d) := by
  refine ⟨?_, ?_, ?_, ?_⟩
  · intro h1
    simp [MPVController.send_command, h1, errDict, dictGet]
  · intro h1 h2
    simp [MPVController.send_command, h1, h2, errDict, dictGet]
  · intro h1 h2 h3
    simp [MPVController.send_command, h1, h2, h3, errDict, dictGet]
  · intro raw h1 h2 h3 h4
    simp [MPVController.send_command, h1, h2, h3, h4, errDict, dictGet]

/-- C5 witness: a call whose transport succeeds but whose response line is
not valid JSON returns the parse failure in the `error` field. -/
theorem send_command_returns_error_result_witness :
    (wMalformedIPC.connect = .ok () ∧ wMalformedIPC.sendLine = .ok ()
      ∧ wMalformedIPC.recvData = .ok "bogus"
      ∧ wMalformedIPC.parse "bogus" = .error "Expecting value: line 1 column 1 (char 0)")
    ∧ dictGet (MPVController.send_command wMalformedIPC []) "error"
        = some (.str "Expecting value: line 1 column 1 (char 0)") :=
  ⟨⟨rfl, rfl, rfl, rfl⟩,
    (send_command_returns_error_result wMalformedIPC []
      "Expecting value: line 1 column 1 (char 0)").2.2.2 "bogus" rfl rfl rfl rfl⟩

/-- C6: the CLI broadcast entry point rejects every action name other than
`next` and `shuffle` with a usage error (argparse's `choices` check exits
before any socket IO can happen, so the error cannot be swallowed by the
per-socket failure handling), while `next` resolves to the script-message
`grid-sync-next` command and `shuffle` to `grid-sync-shuffle`. -/
theorem broadcast_cli_rejects_unknown_action (env : BroadcastEnv)
    (sockGlob : Option String) (action : String) :
    (action ∉ argparseBroadcastChoices →
        mainBroadcast env action sockGlob
          = .error ("argument --broadcast: invalid choice: " ++ action
              ++ " (choose from next, shuffle)"))
    ∧ (∀ pc ∈ broadcastSends env "next" sockGlob,
        pc.2 = ["script-message", "grid-sync-next"])
    ∧ (∀ pc ∈ broadcastSends env "shuffle" sockGlob,
        pc.2 = ["script-message", "grid-sync-shuffle"])
    ∧ mainBroadcast env "next" sockGlob = broadcast env "next" sockGlob
    ∧ mainBroadcast env "shuffle" sockGlob = broadcast env "shuffle" sockGlob := by
  have hn : resolveCommand "next" = .ok ["script-message", "grid-sync-next"] := rfl
  have hs : resolveCommand "shuffle" = .ok ["script-message", "grid-sync-shuffle"] := rfl
  refine ⟨?_, ?_, ?_, ?_, ?_⟩
  · intro h
    simp [mainBroadcast, h]
  · intro pc hpc
    simp only [broadcastSends, hn, List.mem_map] at hpc
    obtain ⟨q, _, hq⟩ := hpc
    rw [← hq]
  · intro pc hpc
    simp only [broadcastSends, hs, List.mem_map] at hpc
    obtain ⟨q, _, hq⟩ := hpc
    rw [← hq]
  · simp [mainBroadcast, argparseBroadcastChoices]
  · simp [mainBroadcast, argparseBroadcastChoices]

/-- C6 witness: the action `loop` is not a valid choice and is rejected
with the usage error. -/
theorem broadcast_cli_rejects_unknown_action_witness :
    "loop" ∉ argparseBroadcastChoices
    ∧ mainBroadcast envNoSockets "loop" none
        = .error ("argument --broadcast: invalid choice: " ++ "loop"
            ++ " (choose from next, shuffle)") :=
  ⟨by decide,
    (broadcast_cli_rejects_unknown_action envNoSockets none "loop").1 (by decide)⟩

lemma renameInPlaylist_not_mem (oldP newP : FilePath) (pl : List FilePath)
    (h : oldP ∉ pl) : renameInPlaylist oldP newP pl = pl := by
  have hnone : pl.findIdx? (fun x => x = oldP) = none := by
    rw [List.findIdx?_eq_none_iff]
    intro x hx
    simp only [decide_eq_false_iff_not]
    exact fun he => h (he ▸ hx)
  rw [renameInPlaylist, hnone]

lemma renameInPlaylist_at_idx (oldP newP : FilePath) (pl : List FilePath) (i : Nat)
    (h : pl.findIdx? (fun x => x = oldP) = some i) :
    renameInPlaylist oldP newP pl = pl.set i newP := by
  rw [renameInPlaylist, h]

lemma renameInPlaylist_ne_iff (oldP newP : FilePath) (hne : oldP ≠ newP)
    (pl : List FilePath) : renameInPlaylist oldP newP pl ≠ pl ↔ oldP ∈ pl := by
  constructor
  · intro h
    by_contra hmem
    exact h (renameInPlaylist_not_mem oldP newP pl hmem)
  · intro hmem heq
    have hsome : (pl.findIdx? fun x => decide (x = oldP)).isSome = true := by
      rw [List.findIdx?_isSome, List.any_eq_true]
      exact ⟨oldP, hmem, by simp⟩
    obtain ⟨i, hi⟩ := Option.isSome_iff_exists.mp hsome
    rw [renameInPlaylist_at_idx oldP newP pl i hi] at heq
    obtain ⟨hlen, hpi, -⟩ := List.findIdx?_eq_some_iff_getElem.mp hi
    have h1 : (pl.set i newP)[i]? = some newP := List.getElem?_set_self hlen
    rw [heq, List.getElem?_eq_getElem hlen] at h1
    have hio : pl[i] = oldP := of_decide_eq_true hpi
    rw [hio, Option.some.injEq] at h1
    exact hne h1

lemma rename_changed_count (oldP newP : FilePath) (hne : oldP ≠ newP) :
    ∀ pls : List (CellKey × List FilePath),
      ((renamePlaylists oldP newP pls).zip pls).countP
          (fun q => decide (q.1.2 ≠ q.2.2))
        = pls.countP (fun p => decide (oldP ∈ p.2)) := by
  intro pls
  induction pls with
  | nil => rfl
  | cons p rest ih =>
    simp only [renamePlaylists, List.map_cons, List.zip_cons_cons, List.countP_cons]
    rw [show (List.map (fun p => (p.1, renameInPlaylist oldP newP p.2)) rest)
        = renamePlaylists oldP newP rest from rfl, ih]
    congr 1
    simp [renameInPlaylist_ne_iff oldP newP hne p.2]

/-- C7: renaming a file updates, among the in-memory playlists, exactly
those that contain the old path: a playlist not containing it is kept
unchanged; a playlist containing it at index `i` gets the new path at `i`
with every other index unchanged; and the number of playlists that change
equals the number of playlists containing the old path. -/
theorem rename_updates_exactly_containing_playlists (oldP newP : FilePath)
    (pls : List (CellKey × List FilePath)) (hne : oldP ≠ newP) :
    (renamePlaylists oldP newP pls).length = pls.length
    ∧ (∀ k pl, (k, pl) ∈ pls → oldP ∉ pl → (k, pl) ∈ renamePlaylists oldP newP pls)
    ∧ (∀ k pl i, (k, pl) ∈ pls → pl.findIdx? (fun x => x = oldP) = some i →
        (k, pl.set i newP) ∈ renamePlaylists oldP newP pls
        ∧ (pl.set i newP)[i]? = some newP
        ∧ ∀ j, j ≠ i → (pl.set i newP)[j]? = pl[j]?)
    ∧ ((renamePlaylists oldP newP pls).zip pls).countP (fun q => decide (q.1.2 ≠ q.2.2))
        = pls.countP (fun p => decide (oldP ∈ p.2)) := by
  refine ⟨List.length_map _ _, ?_, ?_, rename_changed_count oldP newP hne pls⟩
  · intro k pl hmem hnot
    have h1 := List.mem_map_of_mem
      (fun p => (p.1, renameInPlaylist oldP newP p.2)) hmem
    rw [renamePlaylists]
    simpa [renameInPlaylist_not_mem oldP newP pl hnot] using h1
  · intro k pl i hmem hidx
    obtain ⟨hlen, -, -⟩ := List.findIdx?_eq_some_iff_getElem.mp hidx
    refine ⟨?_, List.getElem?_set_self hlen, ?_⟩
    · have h1 := List.mem_map_of_mem
        (fun p => (p.1, renameInPlaylist oldP newP p.2)) hmem
      rw [renamePlaylists]
      simpa [renameInPlaylist_at_idx oldP newP pl i hidx] using h1
    · intro j hj
      exact List.getElem?_set_ne (Ne.symm hj)

/-- C7 witness: renaming `alpha.mp4` to `beta.mp4` in playlists where it
occurs in one of the two cells. -/
theorem rename_updates_exactly_containing_playlists_witness :
    pathA ≠ pathB
    ∧ ((renamePlaylists pathA pathB plsRenameEx).length = plsRenameEx.length
      ∧ (∀ k pl, (k, pl) ∈ plsRenameEx → pathA ∉ pl →
          (k, pl) ∈ renamePlaylists pathA pathB plsRenameEx)
      ∧ (∀ k pl i, (k, pl) ∈ plsRenameEx → pl.findIdx? (fun x => x = pathA) = some i →
          (k, pl.set i pathB) ∈ renamePlaylists pathA pathB plsRenameEx
          ∧ (pl.set i pathB)[i]? = some pathB
          ∧ ∀ j, j ≠ i → (pl.set i pathB)[j]? = pl[j]?)
      ∧ ((renamePlaylists pathA pathB plsRenameEx).zip plsRenameEx).countP
            (fun q => decide (q.1.2 ≠ q.2.2))
          = plsRenameEx.countP (fun p => decide (pathA ∈ p.2))) :=
  ⟨by decide,
    rename_updates_exactly_containing_playlists pathA pathB plsRenameEx (by decide)⟩

/-- C8: a rename request whose new basename contains a path separator, or
whose computed target path already exists, ends synchronously in the
respective validation error, with no disk rename, the in-memory playlists
untouched, and no player playlist patched; nothing is retried. -/
theorem rename_validation_rejects (oldPath : FilePath) (newName : String)
    (fsHas : FilePath → Bool) (renameOk : Bool) (renameErr : String)
    (pls : List (CellKey × List FilePath)) (ctrls : List CellKey) :
    (newName.data.contains '/' = true ∨ newName.data.contains '\\' = true →
        renameSelectedCurrent oldPath newName fsHas renameOk renameErr pls ctrls
          = ⟨.invalidName, none, pls, []⟩)
    ∧ (newName.data.isEmpty = false → newName.data.contains '/' = false →
        newName.data.contains '\\' = false →
        fsHas ⟨oldPath.dir, if pySuffix newName ≠ "" then newName
            else newName ++ pySuffix oldPath.base⟩ = true →
        renameSelectedCurrent oldPath newName fsHas renameOk renameErr pls ctrls
          = ⟨.targetExists ⟨oldPath.dir, if pySuffix newName ≠ "" then newName
              else newName ++ pySuffix oldPath.base⟩, none, pls, []⟩) := by
  constructor
  · intro h
    have hne : newName.data.isEmpty = false := by
      cases hd : newName.data with
      | nil => rw [hd] at h; rcases h with h | h <;> simp [List.contains] at h
      | cons c cs => rfl
    rcases h with h | h
    · have hm : '/' ∈ newName.data := by simpa using h
      simp [renameSelectedCurrent, hne, hm]
    · have hm : '\\' ∈ newName.data := by simpa using h
      simp [renameSelectedCurrent, hne, hm]
  · intro h0 h1 h2 h3
    have h1m : '/' ∉ newName.data := by simpa using h1
    have h2m : '\\' ∉ newName.data := by simpa using h2
    simp only [ne_eq, ite_not] at h3
    simp [renameSelectedCurrent, h0, h1m, h2m, h3]

/-- C8 witness: the separator name `a/b` is rejected as invalid, and the
extensionless name `copy` (completed to `copy.mp4` from the old suffix)
hits the already-existing target `/media/copy.mp4`; both leave everything
untouched. -/
theorem rename_validation_rejects_witness :
    ("a/b".data.contains '/' = true
      ∧ renameSelectedCurrent oldMovie "a/b" fsHasCopy true "err" plsRenameEx []
          = ⟨.invalidName, none, plsRenameEx, []⟩)
    ∧ ("copy".data.isEmpty = false ∧ "copy".data.contains '/' = false
      ∧ "copy".data.contains '\\' = false
      ∧ fsHasCopy ⟨oldMovie.dir, if pySuffix "copy" ≠ "" then "copy"
          else "copy" ++ pySuffix oldMovie.base⟩ = true
      ∧ renameSelectedCurrent oldMovie "copy" fsHasCopy true "err" plsRenameEx []
          = ⟨.targetExists ⟨oldMovie.dir, if pySuffix "copy" ≠ "" then "copy"
              else "copy" ++ pySuffix oldMovie.base⟩, none, plsRenameEx, []⟩) :=
  ⟨⟨by decide,
    (rename_validation_rejects oldMovie "a/b" fsHasCopy true "err" plsRenameEx []).1
      (Or.inl (by decide))⟩,
   ⟨by decide, by decide, by decide, by decide,
    (rename_validation_rejects oldMovie "copy" fsHasCopy true "err" plsRenameEx []).2
      (by decide) (by decide) (by decide) (by decide)⟩⟩

/-! ## Decimal representation lemmas (socket path uniqueness) -/

lemma toDigitsCore_shift (fuel : Nat) : ∀ (n : Nat) (ds : List Char),
    Nat.toDigitsCore 10 fuel n ds = Nat.toDigitsCore 10 fuel n [] ++ ds := by
  induction fuel with
  | zero => intro n ds; rfl
  | succ f ih =>
    intro n ds
    by_cases h : n / 10 = 0
    · simp [Nat.toDigitsCore, h]
    · simp only [Nat.toDigitsCore, h, if_false]
      rw [ih (n / 10) (Nat.digitChar (n % 10) :: ds),
        ih (n / 10) (Nat.digitChar (n % 10) :: [])]
      simp

lemma digitVal_digitChar (d : Nat) (h : d < 10) : digitVal (Nat.digitChar d) = d := by
  interval_cases d <;> decide

lemma digitsVal_append_singleton (xs : List Char) (c : Char) :
    digitsVal (xs ++ [c]) = 10 * digitsVal xs + digitVal c := by
  simp [digitsVal, List.foldl_append]

lemma toDigitsCore_val (fuel : Nat) : ∀ n : Nat, n < fuel →
    digitsVal (Nat.toDigitsCore 10 fuel n []) = n := by
  induction fuel with
  | zero => intro n h; exact absurd h (Nat.not_lt_zero n)
  | succ f ih =>
    intro n h
    have hm : digitVal (Nat.digitChar (n % 10)) = n % 10 :=
      digitVal_digitChar _ (Nat.mod_lt _ (by norm_num))
    by_cases h0 : n / 10 = 0
    · simp only [Nat.toDigitsCore, h0, if_true]
      simp [digitsVal, hm]
      omega
    · have hlt : n / 10 < f := by
        have h1 : n / 10 < n :=
          Nat.div_lt_self (Nat.pos_of_ne_zero (by intro hz; omega)) (by norm_num)
        omega
      rw [show Nat.toDigitsCore 10 (f + 1) n []
          = Nat.toDigitsCore 10 f (n / 10) [Nat.digitChar (n % 10)] from by
            simp [Nat.toDigitsCore, h0]]
      rw [toDigitsCore_shift f (n / 10) [Nat.digitChar (n % 10)],
        digitsVal_append_singleton, ih (n / 10) hlt, hm]
      omega

lemma digitsVal_repr (n : Nat) : digitsVal (Nat.repr n).data = n :=
  toDigitsCore_val (n + 1) n (Nat.lt_succ_self n)

lemma repr_data_inj {m n : Nat} (h : (Nat.repr m).data = (Nat.repr n).data) : m = n := by
  have h2 := congrArg digitsVal h
  rwa [digitsVal_repr, digitsVal_repr] at h2

lemma digitChar_isDigit (d : Nat) (h : d < 10) : (Nat.digitChar d).isDigit = true := by
  interval_cases d <;> decide

lemma toDigitsCore_all_digits (fuel : Nat) : ∀ (n : Nat) (ds : List Char),
    (∀ c ∈ ds, c.isDigit = true) →
    ∀ c ∈ Nat.toDigitsCore 10 fuel n ds, c.isDigit = true := by
  induction fuel with
  | zero => intro n ds hds; exact hds
  | succ f ih =>
    intro n ds hds c hc
    have hdc : (Nat.digitChar (n % 10)).isDigit = true :=
      digitChar_isDigit _ (Nat.mod_lt _ (by norm_num))
    by_cases h0 : n / 10 = 0
    · rw [show Nat.toDigitsCore 10 (f + 1) n ds = Nat.digitChar (n % 10) :: ds from by
        simp [Nat.toDigitsCore, h0]] at hc
      rcases List.mem_cons.mp hc with h | h
      · rw [h]; exact hdc
      · exact hds c h
    · rw [show Nat.toDigitsCore 10 (f + 1) n ds
          = Nat.toDigitsCore 10 f (n / 10) (Nat.digitChar (n % 10) :: ds) from by
        simp [Nat.toDigitsCore, h0]] at hc
      refine ih (n / 10) _ ?_ c hc
      intro c2 hc2
      rcases List.mem_cons.mp hc2 with h | h
      · rw [h]; exact hdc
      · exact hds c2 h

lemma repr_no_dash (n : Nat) : '-' ∉ (Nat.repr n).data := fun h =>
  absurd (toDigitsCore_all_digits (n + 1) n [] (by simp) '-' h) (by decide)

lemma repr_no_dot (n : Nat) : '.' ∉ (Nat.repr n).data := fun h =>
  absurd (toDigitsCore_all_digits (n + 1) n [] (by simp) '.' h) (by decide)

lemma sep_split {sep : Char} : ∀ (a a' b b' : List Char), sep ∉ a → sep ∉ a' →
    a ++ sep :: b = a' ++ sep :: b' → a = a' ∧ b = b' := by
  intro a
  induction a with
  | nil =>
    intro a' b b' _ ha' h
    cases a' with
    | nil => simpa using h
    | cons x xs =>
      simp only [List.nil_append, List.cons_append, List.cons.injEq] at h
      exact absurd (h.1 ▸ List.mem_cons_self x xs) ha'
  | cons y ys ih =>
    intro a' b b' ha ha' h
    cases a' with
    | nil =>
      simp only [List.nil_append, List.cons_append, List.cons.injEq] at h
      exact absurd (h.1.symm ▸ List.mem_cons_self y ys) ha
    | cons x xs =>
      simp only [List.cons_append, List.cons.injEq] at h
      obtain ⟨h1, h2⟩ := h
      have hys : sep ∉ ys := fun hm => ha (List.mem_cons_of_mem _ hm)
      have hxs : sep ∉ xs := fun hm => ha' (List.mem_cons_of_mem _ hm)
      obtain ⟨e1, e2⟩ := ih xs b b' hys hxs h2
      exact ⟨by rw [h1, e1], e2⟩

lemma string_data_append (s t : String) : (s ++ t).data = s.data ++ t.data := rfl

lemma socketPath_inj (g : String) (r c r' c' : Nat)
    (h : socketPath g r c = socketPath g r' c') : r = r' ∧ c = c' := by
  have hd := congrArg String.data h
  simp only [socketPath, string_data_append, List.append_assoc,
    show ("-" : String).data = ['-'] from rfl,
    show (".sock" : String).data = ['.', 's', 'o', 'c', 'k'] from rfl,
    List.singleton_append, List.cons_append, List.nil_append,
    List.cons.injEq, true_and] at hd
  have h1 := List.append_cancel_left hd
  simp only [List.cons.injEq, true_and] at h1
  have h2 := h1
  obtain ⟨e1, e2⟩ := sep_split _ _ _ _ (repr_no_dash r) (repr_no_dash r') h2
  obtain ⟨e3, -⟩ := sep_split _ _ _ _ (repr_no_dot c) (repr_no_dot c') e2
  exact ⟨repr_data_inj e1, repr_data_inj e3⟩

lemma gridCoords_eq_product (rows cols : Nat) :
    gridCoords rows cols = (List.range rows) ×ˢ (List.range cols) := rfl

/-- C9: starting an `rows x cols` wall with `rows * cols = N ≥ 1` produces
exactly N registry entries (each carrying its controller socket, process
and playlist), with pairwise distinct cell coordinates, pairwise distinct
socket paths, and every socket path equal to the deterministic function of
the wall-instance identifier and the cell coordinate. -/
theorem start_grid_unique_entries (gridId : String) (rows cols : Nat)
    (playlistFor : CellKey → List FilePath) (hN : 1 ≤ rows * cols) :
    (startGrid gridId rows cols playlistFor).length = rows * cols
    ∧ ((startGrid gridId rows cols playlistFor).map RegistryEntry.coord).Nodup
    ∧ ((startGrid gridId rows cols playlistFor).map RegistryEntry.socket).Nodup
    ∧ ∀ e ∈ startGrid gridId rows cols playlistFor,
        e.socket = socketPath gridId e.coord.1 e.coord.2 := by
  have hnodup : (gridCoords rows cols).Nodup := by
    rw [gridCoords_eq_product]
    exact (List.nodup_range rows).product (List.nodup_range cols)
  have hcoord : (startGrid gridId rows cols playlistFor).map RegistryEntry.coord
      = gridCoords rows cols := by
    rw [startGrid, List.map_map]
    exact List.map_id _
  have hsock : (startGrid gridId rows cols playlistFor).map RegistryEntry.socket
      = (gridCoords rows cols).map fun rc => socketPath gridId rc.1 rc.2 := by
    rw [startGrid, List.map_map]
    rfl
  refine ⟨?_, ?_, ?_, ?_⟩
  · rw [startGrid, List.length_map, gridCoords_eq_product, List.length_product,
      List.length_range, List.length_range]
  · rw [hcoord]
    exact hnodup
  · rw [hsock]
    refine hnodup.map ?_
    intro p q hpq
    obtain ⟨e1, e2⟩ := socketPath_inj gridId p.1 p.2 q.1 q.2 hpq
    exact Prod.ext e1 e2
  · intro e he
    rw [startGrid] at he
    obtain ⟨rc, -, hrc⟩ := List.mem_map.mp he
    rw [← hrc]

/-- C9 witness: a 2x2 wall for a concrete wall-instance identifier. -/
theorem start_grid_unique_entries_witness :
    1 ≤ 2 * 2
    ∧ ((startGrid (gridIdOf 4242 1700000000) 2 2 fun _ => []).length = 2 * 2
      ∧ ((startGrid (gridIdOf 4242 1700000000) 2 2 fun _ => []).map
          RegistryEntry.coord).Nodup
      ∧ ((startGrid (gridIdOf 4242 1700000000) 2 2 fun _ => []).map
          RegistryEntry.socket).Nodup
      ∧ ∀ e ∈ startGrid (gridIdOf 4242 1700000000) 2 2 fun _ => [],
          e.socket = socketPath (gridIdOf 4242 1700000000) e.coord.1 e.coord.2) :=
  ⟨by decide,
    start_grid_unique_entries (gridIdOf 4242 1700000000) 2 2 (fun _ => []) (by decide)⟩

end Goobert
